import Mathlib

/-!
# Task-Manager: the in-memory store of `db/db.go` and its handlers

A shallow embedding of the task store (`db/db.go`) over the record of
`models/task.go`, of the validation rule (`utils/validation.go`) and of the
handlers that call them (`handlers/task.go`).  The package-level variable `tasks` becomes an explicit
`Store` argument; every operation returns its Go results together with the
value of `tasks` when it returns.  The mutex `mu` serialises the operations, so
one call is one atomic function of the store.

Go's `int` is modelled by `Int`.  The only arithmetic in the store is
`len(tasks) + 1`, which cannot leave the 64-bit range for a slice that fits in
memory.  A Go slice is modelled by the `List` of its elements, so a `nil` slice
and an empty one are the same value.
-/

namespace TaskManager

/-- Go's `time.Time` value: wall clock word, monotonic/extended word and the
location pointer (`none` is the `nil` location). -/
structure Time where
  wall : Nat
  ext : Int
  loc : Option Nat
  deriving DecidableEq, Repr

/-- The zero value `time.Time{}`. -/
def Time.zero : Time := { wall := 0, ext := 0, loc := none }

/-- The record `models.Task` (`models/task.go`). -/
structure Task where
  ID : Int
  Title : String
  Description : String
  Status : String
  Category : String
  DueDate : Time
  deriving DecidableEq, Repr

/-- The zero value `models.Task{}`. -/
def Task.zero : Task :=
  { ID := 0, Title := "", Description := "", Status := "", Category := "", DueDate := Time.zero }

/-- A Go `error` value: `none` is `nil`, `some msg` is an error whose text is `msg`. -/
abbrev Error := Option String

/-- The error `fmt.Errorf("task not found")`. -/
def errNotFound : Error := some "task not found"

/-- The package variable `tasks` of `db/db.go`. -/
abbrev Store := List Task

/-- The initial value `var tasks = []models.Task{}`. -/
def emptyStore : Store := []

/-- The store operation `ClearTasks` of `db.go`: `tasks = []models.Task{}`. -/
def ClearTasks (_tasks : Store) : Store := []

/-- The store operation `GetAllTasks` of `db.go`: `return tasks, nil`. -/
def GetAllTasks (tasks : Store) : (List Task × Error) × Store :=
  ((tasks, none), tasks)

/-- The `for _, task := range tasks` loop of `GetTaskByID`, with the
`return models.Task{}, fmt.Errorf("task not found")` that follows it. -/
def GetTaskByID.loop (id : Int) : List Task → Task × Error
  | [] => (Task.zero, errNotFound)
  | task :: rest => if task.ID = id then (task, none) else GetTaskByID.loop id rest

/-- The store operation `GetTaskByID` of `db.go`. -/
def GetTaskByID (tasks : Store) (id : Int) : (Task × Error) × Store :=
  (GetTaskByID.loop id tasks, tasks)

/-- The store operation `CreateTask` of `db.go`:
`task.ID = len(tasks) + 1; tasks = append(tasks, task); return nil`. -/
def CreateTask (tasks : Store) (task : Task) : Error × Store :=
  let task := { task with ID := (tasks.length : Int) + 1 }
  (none, tasks ++ [task])

/-- The `for i, t := range tasks` loop of `UpdateTask`: `i` is the index of the
head of the part still to be visited; on a match `tasks[i] = task`. -/
def UpdateTask.loop (tasks : Store) (task : Task) : Nat → List Task → Error × Store
  | _, [] => (errNotFound, tasks)
  | i, t :: rest =>
    if t.ID = task.ID then (none, tasks.set i task)
    else UpdateTask.loop tasks task (i + 1) rest

/-- The store operation `UpdateTask` of `db.go`. -/
def UpdateTask (tasks : Store) (task : Task) : Error × Store :=
  UpdateTask.loop tasks task 0 tasks

/-- The `for i, task := range tasks` loop of `DeleteTask`: on a match
`tasks = append(tasks[:i], tasks[i+1:]...)`. -/
def DeleteTask.loop (tasks : Store) (id : Int) : Nat → List Task → Error × Store
  | _, [] => (errNotFound, tasks)
  | i, task :: rest =>
    if task.ID = id then (none, tasks.take i ++ tasks.drop (i + 1))
    else DeleteTask.loop tasks id (i + 1) rest

/-- The store operation `DeleteTask` of `db.go`. -/
def DeleteTask (tasks : Store) (id : Int) : Error × Store :=
  DeleteTask.loop tasks id 0 tasks

/-- The condition of the `if` in `GetFilteredTasks`:
`(category == "" || task.Category == category) && (status == "" || task.Status == status)`. -/
def filterCond (category status : String) (task : Task) : Bool :=
  (category == "" || task.Category == category) && (status == "" || task.Status == status)

/-- The `for _, task := range tasks` loop of `GetFilteredTasks`, threading the
accumulator `filteredTasks`. -/
def GetFilteredTasks.loop (category status : String) : List Task → List Task → List Task
  | filteredTasks, [] => filteredTasks
  | filteredTasks, task :: rest =>
    if filterCond category status task then
      GetFilteredTasks.loop category status (filteredTasks ++ [task]) rest
    else
      GetFilteredTasks.loop category status filteredTasks rest

/-- The store operation `GetFilteredTasks` of `db.go`; `var filteredTasks []models.Task` starts
as the `nil` slice. -/
def GetFilteredTasks (tasks : Store) (category status : String) : (List Task × Error) × Store :=
  ((GetFilteredTasks.loop category status [] tasks, none), tasks)

/-- A mutating call on the store. -/
inductive Op where
  | create (task : Task)
  | update (task : Task)
  | delete (id : Int)
  | clear
  deriving DecidableEq, Repr

/-- The store after one call. -/
def Op.apply (tasks : Store) : Op → Store
  | .create task => (CreateTask tasks task).2
  | .update task => (UpdateTask tasks task).2
  | .delete id => (DeleteTask tasks id).2
  | .clear => ClearTasks tasks

/-- The store after a sequence of calls, left to right. -/
def run (tasks : Store) (ops : List Op) : Store :=
  ops.foldl Op.apply tasks

/-- A store state that some finite sequence of calls produces from the empty store. -/
def Reachable (tasks : Store) : Prop :=
  ∃ ops : List Op, run emptyStore ops = tasks

/-- Whether a call is an `UpdateTask`. -/
def Op.isUpdate : Op → Bool
  | .update _ => true
  | _ => false

/-- Whether a call is a `CreateTask`. -/
def Op.isCreate : Op → Bool
  | .create _ => true
  | _ => false

/-- The IDs of a store are `1, 2, ..., n` in this order, `n` its length. -/
def SeqIds (tasks : Store) : Prop :=
  tasks.map Task.ID = (List.range tasks.length).map (fun k : Nat => (k : Int) + 1)

/-- The filter of the specification: the tasks of a sequence that match the category (when one
is given) and the status (when one is given), in the order of the sequence. -/
def specFilter (category status : String) (all : List Task) : List Task :=
  all.filter (fun task =>
    decide ((category = "" ∨ task.Category = category) ∧ (status = "" ∨ task.Status = status)))

/-- First task of the scenario in section 8 of the specification. -/
def buyMilk : Task := { Task.zero with Title := "Buy milk", Description := "2% milk, 1 gallon" }

/-- Second task of the scenario. -/
def walkDog : Task := { Task.zero with Title := "Walk dog", Description := "30 min walk" }

/-- Third task of the scenario. -/
def readBook : Task := { Task.zero with Title := "Read", Description := "book" }

/-- The store after create, create, `DeleteTask(1)`: one task, with ID 2. -/
def afterDelete : Store :=
  run emptyStore [.create buyMilk, .create walkDog, .delete 1]

/-- The store after create, create, `DeleteTask(1)`, create: two tasks with ID 2. -/
def collided : Store :=
  run emptyStore [.create buyMilk, .create walkDog, .delete 1, .create readBook]

/-! ## Validation and handlers (`utils/validation.go`, `handlers/task.go`) -/

/-- The validation `ValidateTaskInput` of `utils/validation.go`. -/
def ValidateTaskInput (title description : String) : Error :=
  if title == "" || description == "" then
    some "both title and description are required"
  else
    none

/-- The constant `http.StatusOK`, the status of a response on which `WriteHeader` was not
called. -/
def StatusOK : Nat := 200

/-- The constant `http.StatusNoContent`. -/
def StatusNoContent : Nat := 204

/-- The constant `http.StatusBadRequest`. -/
def StatusBadRequest : Nat := 400

/-- The constant `http.StatusNotFound`. -/
def StatusNotFound : Nat := 404

/-- The constant `http.StatusInternalServerError`. -/
def StatusInternalServerError : Nat := 500

/-- What a handler wrote as the body of its response: the message of an `http.Error`, the task
or the tasks given to `json.NewEncoder(w).Encode`, or nothing. -/
inductive Body where
  | text (msg : String)
  | task (t : Task)
  | tasks (ts : List Task)
  | empty
  deriving DecidableEq, Repr

/-- The response a handler leaves in its `http.ResponseWriter`. -/
structure Response where
  status : Nat
  body : Body
  deriving DecidableEq, Repr

/-- The call `http.Error(w, msg, code)`. -/
def httpError (msg : String) (code : Nat) : Response :=
  { status := code, body := Body.text msg }

/-- The handler `CreateTask` of `handlers/task.go`. `decoded` is the outcome of
`json.NewDecoder(r.Body).Decode(&task)`: `none` for an error, else the decoded task. The
response encodes the handler's own variable `task`, which `db.CreateTask` received by value. -/
def handlers.CreateTask (tasks : Store) (decoded : Option Task) : Response × Store :=
  match decoded with
  | none => (httpError "Invalid input" StatusBadRequest, tasks)
  | some task =>
    match ValidateTaskInput task.Title task.Description with
    | some err => (httpError err StatusBadRequest, tasks)
    | none =>
      match TaskManager.CreateTask tasks task with
      | (some _, tasks1) => (httpError "Error creating task" StatusInternalServerError, tasks1)
      | (none, tasks1) => ({ status := StatusOK, body := Body.task task }, tasks1)

/-- The function `CreateTaskCLI` of `handlers/task.go`. The returned pointer is the local
`task`; `db.CreateTask(*task)` received a copy. A `nil` pointer is `none`. -/
def handlers.CreateTaskCLI (tasks : Store) (title description : String) :
    (Option Task × Error) × Store :=
  let task : Task := { Task.zero with Title := title, Description := description }
  match ValidateTaskInput task.Title task.Description with
  | some err => ((none, some err), tasks)
  | none =>
    match TaskManager.CreateTask tasks task with
    | (some err, tasks1) => ((none, some ("error creating task: " ++ err)), tasks1)
    | (none, tasks1) => ((some task, none), tasks1)

/-- The handler `GetTaskByID` of `handlers/task.go`. `id` is the outcome of
`strconv.Atoi(vars["id"])`: `none` for an error. -/
def handlers.GetTaskByID (tasks : Store) (id : Option Int) : Response × Store :=
  match id with
  | none => (httpError "Invalid task ID" StatusBadRequest, tasks)
  | some id =>
    match TaskManager.GetTaskByID tasks id with
    | ((_, some _), tasks1) => (httpError "Task not found" StatusNotFound, tasks1)
    | ((task, none), tasks1) => ({ status := StatusOK, body := Body.task task }, tasks1)

/-- The handler `UpdateTask` of `handlers/task.go`, with `id` and `decoded` as in the
handlers above; after decoding `task.ID = id`. -/
def handlers.UpdateTask (tasks : Store) (id : Option Int) (decoded : Option Task) :
    Response × Store :=
  match id with
  | none => (httpError "Invalid task ID" StatusBadRequest, tasks)
  | some id =>
    match decoded with
    | none => (httpError "Invalid input" StatusBadRequest, tasks)
    | some task =>
      let task := { task with ID := id }
      match ValidateTaskInput task.Title task.Description with
      | some err => (httpError err StatusBadRequest, tasks)
      | none =>
        match TaskManager.UpdateTask tasks task with
        | (some _, tasks1) => (httpError "Error updating task" StatusInternalServerError, tasks1)
        | (none, tasks1) => ({ status := StatusNoContent, body := Body.empty }, tasks1)

/-- The handler `DeleteTask` of `handlers/task.go`. -/
def handlers.DeleteTask (tasks : Store) (id : Option Int) : Response × Store :=
  match id with
  | none => (httpError "Invalid task ID" StatusBadRequest, tasks)
  | some id =>
    match TaskManager.DeleteTask tasks id with
    | (some _, tasks1) => (httpError "Error deleting task" StatusInternalServerError, tasks1)
    | (none, tasks1) => ({ status := StatusNoContent, body := Body.empty }, tasks1)

/-- A mutating call of a client that creates tasks only through `CreateTaskCLI`. -/
inductive CliOp where
  | create (title description : String)
  | delete (id : Int)
  deriving DecidableEq, Repr

/-- The store after one such call. -/
def CliOp.apply (tasks : Store) : CliOp → Store
  | .create title description => (handlers.CreateTaskCLI tasks title description).2
  | .delete id => (DeleteTask tasks id).2

/-- The store after a sequence of such calls, left to right. -/
def runCli (tasks : Store) (ops : List CliOp) : Store :=
  ops.foldl CliOp.apply tasks

/-- The ID at every 0-based position `i` of the store is at least `i + 1`. -/
def PosLe (tasks : Store) : Prop :=
  ∀ (i : Nat) (id : Int), (tasks.map Task.ID)[i]? = some id → (i : Int) + 1 ≤ id

/-! ## Loop lemmas -/

theorem getTaskByID_loop_of_absent (id : Int) (s : List Task) (h : ∀ x ∈ s, x.ID ≠ id) :
    GetTaskByID.loop id s = (Task.zero, errNotFound) := by
  induction s with
  | nil => rfl
  | cons a rest ih =>
    have ha : a.ID ≠ id := h a (List.mem_cons_self _ _)
    simp only [GetTaskByID.loop, if_neg ha]
    exact ih (fun x hx => h x (List.mem_cons_of_mem _ hx))

theorem getTaskByID_loop_of_split (id : Int) (pre : List Task) (t : Task) (post : List Task)
    (hpre : ∀ x ∈ pre, x.ID ≠ id) (ht : t.ID = id) :
    GetTaskByID.loop id (pre ++ t :: post) = (t, none) := by
  induction pre with
  | nil => simp [GetTaskByID.loop, ht]
  | cons a rest ih =>
    have ha : a.ID ≠ id := hpre a (List.mem_cons_self _ _)
    simp only [List.cons_append, GetTaskByID.loop, if_neg ha]
    exact ih (fun x hx => hpre x (List.mem_cons_of_mem _ hx))

/-- A list with an element of the given ID splits at the first such element. -/
theorem exists_first_split (id : Int) (s : List Task) (h : ∃ t ∈ s, t.ID = id) :
    ∃ pre t post, s = pre ++ t :: post ∧ (∀ x ∈ pre, x.ID ≠ id) ∧ t.ID = id := by
  induction s with
  | nil => simp at h
  | cons a rest ih =>
    by_cases ha : a.ID = id
    · exact ⟨[], a, rest, rfl, by simp, ha⟩
    · have h' : ∃ t ∈ rest, t.ID = id := by
        obtain ⟨t, ht, hid⟩ := h
        rcases List.mem_cons.1 ht with rfl | ht
        · exact absurd hid ha
        · exact ⟨t, ht, hid⟩
      obtain ⟨pre, t, post, hs, hpre, ht⟩ := ih h'
      refine ⟨a :: pre, t, post, by simp [hs], ?_, ht⟩
      intro x hx
      rcases List.mem_cons.1 hx with rfl | hx
      · exact ha
      · exact hpre x hx

theorem updateTask_loop_of_absent (tasks : Store) (u : Task) (i : Nat) (rest : List Task)
    (h : ∀ x ∈ rest, x.ID ≠ u.ID) :
    UpdateTask.loop tasks u i rest = (errNotFound, tasks) := by
  induction rest generalizing i with
  | nil => rfl
  | cons a rest ih =>
    have ha : a.ID ≠ u.ID := h a (List.mem_cons_self _ _)
    simp only [UpdateTask.loop, if_neg ha]
    exact ih (i + 1) (fun x hx => h x (List.mem_cons_of_mem _ hx))

theorem updateTask_loop_of_split (tasks : Store) (u : Task) (i : Nat)
    (pre : List Task) (t : Task) (post : List Task)
    (hpre : ∀ x ∈ pre, x.ID ≠ u.ID) (ht : t.ID = u.ID) :
    UpdateTask.loop tasks u i (pre ++ t :: post) = (none, tasks.set (i + pre.length) u) := by
  induction pre generalizing i with
  | nil => simp [UpdateTask.loop, ht]
  | cons a rest ih =>
    have ha : a.ID ≠ u.ID := hpre a (List.mem_cons_self _ _)
    rw [List.cons_append, UpdateTask.loop, if_neg ha]
    rw [ih (i + 1) (fun x hx => hpre x (List.mem_cons_of_mem _ hx))]
    simp only [List.length_cons]
    rw [show i + 1 + rest.length = i + (rest.length + 1) by omega]

theorem deleteTask_loop_of_absent (tasks : Store) (id : Int) (i : Nat) (rest : List Task)
    (h : ∀ x ∈ rest, x.ID ≠ id) :
    DeleteTask.loop tasks id i rest = (errNotFound, tasks) := by
  induction rest generalizing i with
  | nil => rfl
  | cons a rest ih =>
    have ha : a.ID ≠ id := h a (List.mem_cons_self _ _)
    simp only [DeleteTask.loop, if_neg ha]
    exact ih (i + 1) (fun x hx => h x (List.mem_cons_of_mem _ hx))

theorem deleteTask_loop_of_split (tasks : Store) (id : Int) (i : Nat)
    (pre : List Task) (t : Task) (post : List Task)
    (hpre : ∀ x ∈ pre, x.ID ≠ id) (ht : t.ID = id) :
    DeleteTask.loop tasks id i (pre ++ t :: post) =
      (none, tasks.take (i + pre.length) ++ tasks.drop (i + pre.length + 1)) := by
  induction pre generalizing i with
  | nil => simp [DeleteTask.loop, ht]
  | cons a rest ih =>
    have ha : a.ID ≠ id := hpre a (List.mem_cons_self _ _)
    rw [List.cons_append, DeleteTask.loop, if_neg ha]
    rw [ih (i + 1) (fun x hx => hpre x (List.mem_cons_of_mem _ hx))]
    simp only [List.length_cons]
    rw [show i + 1 + rest.length = i + (rest.length + 1) by omega]

theorem updateTask_of_split (u : Task) (pre : List Task) (t : Task) (post : List Task)
    (hpre : ∀ x ∈ pre, x.ID ≠ u.ID) (ht : t.ID = u.ID) :
    UpdateTask (pre ++ t :: post) u = (none, pre ++ u :: post) := by
  unfold UpdateTask
  rw [updateTask_loop_of_split _ u 0 pre t post hpre ht]
  simp

theorem deleteTask_of_split (id : Int) (pre : List Task) (t : Task) (post : List Task)
    (hpre : ∀ x ∈ pre, x.ID ≠ id) (ht : t.ID = id) :
    DeleteTask (pre ++ t :: post) id = (none, pre ++ post) := by
  unfold DeleteTask
  rw [deleteTask_loop_of_split _ id 0 pre t post hpre ht]
  simp

theorem getFilteredTasks_loop_eq (category status : String) (acc s : List Task) :
    GetFilteredTasks.loop category status acc s = acc ++ s.filter (filterCond category status) := by
  induction s generalizing acc with
  | nil => simp [GetFilteredTasks.loop]
  | cons a rest ih =>
    by_cases ha : filterCond category status a = true
    · simp [GetFilteredTasks.loop, ha, ih]
    · simp [GetFilteredTasks.loop, ha, ih]

/-! ## Identifier collisions after a deletion -/

/-- C1 (Create/GetByID round trip) evaluated after a deletion: in the reachable store
`afterDelete`, which holds the single task "Walk dog" with ID 2, `CreateTask` of "Read"
(non-empty title and description) returns no error and stores it with ID 2, and the following
`GetTaskByID(2)` returns, without error, "Walk dog", not the task just stored. -/
theorem createTask_getTaskByID_after_delete :
    Reachable afterDelete ∧
    readBook.Title ≠ "" ∧ readBook.Description ≠ "" ∧
    afterDelete = [{ walkDog with ID := 2 }] ∧
    CreateTask afterDelete readBook = (none, afterDelete ++ [{ readBook with ID := 2 }]) ∧
    (GetTaskByID (CreateTask afterDelete readBook).2 2).1 = ({ walkDog with ID := 2 }, none) ∧
    ({ walkDog with ID := 2 } : Task) ≠ { readBook with ID := 2 } := by
  refine ⟨⟨_, rfl⟩, by decide, by decide, by decide, by decide, by decide, by decide⟩

/-- C2 (unique-id invariant) evaluated on a reachable store: after create, create,
`DeleteTask(1)`, create the store holds two tasks, both with ID 2. -/
theorem reachable_duplicate_ids :
    Reachable collided ∧
    collided = [{ walkDog with ID := 2 }, { readBook with ID := 2 }] ∧
    collided.map Task.ID = [2, 2] ∧
    ¬ (collided.map Task.ID).Nodup := by
  refine ⟨⟨_, rfl⟩, by decide, by decide, by decide⟩

/-! ## CreateTask -/

/-- C3 (Create postcondition): `CreateTask` returns no error and the new store is the old one
followed by the task with its ID overwritten by `len + 1`; the old tasks keep their positions,
the new task sits at position `len`, and the ID the caller supplied has no influence. -/
theorem createTask_postcondition (s : Store) (t : Task) :
    CreateTask s t = (none, s ++ [{ t with ID := (s.length : Int) + 1 }]) ∧
    (CreateTask s t).2.length = s.length + 1 ∧
    (CreateTask s t).2.take s.length = s ∧
    (CreateTask s t).2[s.length]? = some { t with ID := (s.length : Int) + 1 } ∧
    (∀ id : Int, CreateTask s { t with ID := id } = CreateTask s t) := by
  refine ⟨rfl, by simp [CreateTask], by simp [CreateTask], by simp [CreateTask], fun _ => rfl⟩

theorem updateTask_map_ID (s : Store) (u : Task) :
    (UpdateTask s u).2.map Task.ID = s.map Task.ID := by
  by_cases h : ∃ t ∈ s, t.ID = u.ID
  · obtain ⟨pre, t, post, hs, hpre, ht⟩ := exists_first_split u.ID s h
    subst hs
    rw [updateTask_of_split u pre t post hpre ht]
    simp [ht]
  · have h' : ∀ x ∈ s, x.ID ≠ u.ID := fun x hx hid => h ⟨x, hx, hid⟩
    unfold UpdateTask
    rw [updateTask_loop_of_absent s u 0 s h']

theorem updateTask_length (s : Store) (u : Task) : (UpdateTask s u).2.length = s.length := by
  have h := congrArg List.length (updateTask_map_ID s u)
  simpa using h

theorem seqIds_createTask {s : Store} (h : SeqIds s) (t : Task) : SeqIds (CreateTask s t).2 := by
  unfold SeqIds at *
  simp [CreateTask, List.range_succ, h]

theorem seqIds_updateTask {s : Store} (h : SeqIds s) (u : Task) : SeqIds (UpdateTask s u).2 := by
  unfold SeqIds at *
  rw [updateTask_map_ID, updateTask_length]
  exact h

theorem run_cons (s : Store) (op : Op) (ops : List Op) :
    run s (op :: ops) = run (op.apply s) ops := rfl

theorem run_createUpdate (ops : List Op) :
    ∀ s : Store, (∀ op ∈ ops, (op.isCreate || op.isUpdate) = true) → SeqIds s →
      SeqIds (run s ops) ∧ (run s ops).length = s.length + ops.countP Op.isCreate := by
  induction ops with
  | nil => intro s _ hs; exact ⟨hs, by simp [run]⟩
  | cons op ops ih =>
    intro s hops hs
    have hrest : ∀ o ∈ ops, (o.isCreate || o.isUpdate) = true :=
      fun o ho => hops o (List.mem_cons_of_mem _ ho)
    have hop := hops op (List.mem_cons_self _ _)
    rw [run_cons]
    cases op with
    | create t =>
      obtain ⟨h1, h2⟩ := ih (CreateTask s t).2 hrest (seqIds_createTask hs t)
      refine ⟨h1, ?_⟩
      rw [Op.apply, h2]
      simp [CreateTask, Op.isCreate, List.countP_cons]
      omega
    | update u =>
      obtain ⟨h1, h2⟩ := ih (UpdateTask s u).2 hrest (seqIds_updateTask hs u)
      refine ⟨h1, ?_⟩
      rw [Op.apply, h2, updateTask_length]
      simp [Op.isCreate, List.countP_cons]
    | delete id => simp [Op.isCreate, Op.isUpdate] at hop
    | clear => simp [Op.isCreate, Op.isUpdate] at hop

theorem run_creates_getElem (ts : List Task) :
    ∀ (s : Store) (k : Nat), (run s (ts.map Op.create))[k]? =
      if k < s.length then s[k]?
      else (ts[k - s.length]?).map (fun t => { t with ID := (k : Int) + 1 }) := by
  induction ts with
  | nil =>
    intro s k
    by_cases hk : k < s.length
    · simp [run, hk]
    · simp [run, hk]
      omega
  | cons t ts ih =>
    intro s k
    rw [List.map_cons, run_cons, ih]
    simp only [Op.apply, CreateTask, List.length_append, List.length_singleton]
    by_cases hk : k < s.length
    · have hk' : k < s.length + 1 := by omega
      rw [if_pos hk, if_pos hk', List.getElem?_append_left hk]
    · by_cases hk2 : k = s.length
      · subst hk2
        simp
      · have hk' : ¬ k < s.length + 1 := by omega
        rw [if_neg hk, if_neg hk']
        have : k - s.length = (k - (s.length + 1)) + 1 := by omega
        rw [this, List.getElem?_cons_succ]

theorem seqIds_id_le {s : Store} (h : SeqIds s) : ∀ x ∈ s, x.ID ≤ (s.length : Int) := by
  intro x hx
  have hmem : x.ID ∈ s.map Task.ID := List.mem_map_of_mem _ hx
  rw [h] at hmem
  obtain ⟨k, hk, hkx⟩ := List.mem_map.1 hmem
  have := List.mem_range.1 hk
  omega

theorem seqIds_exists_max {s : Store} (h : SeqIds s) (hne : s ≠ []) :
    ∃ x ∈ s, x.ID = (s.length : Int) := by
  have hpos : 0 < s.length := List.length_pos.2 hne
  have hmem : ((s.length - 1 : Nat) : Int) + 1 ∈ s.map Task.ID := by
    rw [h]
    exact List.mem_map.2 ⟨s.length - 1, List.mem_range.2 (by omega), rfl⟩
  obtain ⟨x, hx, hid⟩ := List.mem_map.1 hmem
  exact ⟨x, hx, by omega⟩

/-- C4 (sequential ids and insertion order): from an empty store (initial, or after
`ClearTasks`), after any sequence of `CreateTask` and `UpdateTask` calls with `n` creates,
`GetAllTasks` returns no error and exactly `n` tasks whose IDs are `1, ..., n` in this order;
with creates only, the task at position `k` is the `k`-th created task carrying ID `k + 1`
(0-based `k`); the next `CreateTask` assigns `n + 1`, which is 1 on the empty store and the
maximum stored ID plus one otherwise. -/
theorem createTask_sequential_ids (s0 : Store) (ops : List Op)
    (hs : s0 = emptyStore ∨ ∃ s, s0 = ClearTasks s)
    (hops : ∀ op ∈ ops, (op.isCreate || op.isUpdate) = true) :
    GetAllTasks (run s0 ops) = ((run s0 ops, none), run s0 ops) ∧
    (run s0 ops).length = ops.countP Op.isCreate ∧
    (run s0 ops).map Task.ID =
      (List.range (ops.countP Op.isCreate)).map (fun k : Nat => (k : Int) + 1) ∧
    (∀ (ts : List Task) (k : Nat), (run s0 (ts.map Op.create))[k]? =
      (ts[k]?).map (fun t => { t with ID := (k : Int) + 1 })) ∧
    (∀ t : Task, CreateTask (run s0 ops) t =
      (none, run s0 ops ++ [{ t with ID := ((ops.countP Op.isCreate : Nat) : Int) + 1 }])) ∧
    (run s0 ops = [] → ((ops.countP Op.isCreate : Nat) : Int) + 1 = 1) ∧
    (∀ x ∈ run s0 ops, x.ID + 1 ≤ ((ops.countP Op.isCreate : Nat) : Int) + 1) ∧
    (run s0 ops ≠ [] → ∃ x ∈ run s0 ops, x.ID + 1 = ((ops.countP Op.isCreate : Nat) : Int) + 1) := by
  have h0 : s0 = [] := by
    rcases hs with h | ⟨s, h⟩
    · exact h
    · exact h
  subst h0
  obtain ⟨hseq, hlen⟩ := run_createUpdate ops [] hops (by simp [SeqIds])
  simp only [List.length_nil, Nat.zero_add] at hlen
  refine ⟨rfl, hlen, ?_, ?_, ?_, ?_, ?_, ?_⟩
  · rw [← hlen]; exact hseq
  · intro ts k
    rw [run_creates_getElem]
    simp
  · intro t
    rw [← hlen]; rfl
  · intro he
    rw [← hlen, he]; rfl
  · intro x hx
    have := seqIds_id_le hseq x hx
    rw [← hlen]; omega
  · intro hne
    obtain ⟨x, hx, hid⟩ := seqIds_exists_max hseq hne
    exact ⟨x, hx, by rw [← hlen, hid]⟩

/-- Instance of C4: create, update of ID 1, create from the empty store. -/
theorem createTask_sequential_ids_witness :
    (run emptyStore [.create buyMilk, .update { readBook with ID := 1 }, .create walkDog]).map
        Task.ID = [1, 2] ∧
    (run emptyStore [.create buyMilk, .update { readBook with ID := 1 }, .create walkDog]).length
        = 2 :=
  have h := createTask_sequential_ids emptyStore
    [.create buyMilk, .update { readBook with ID := 1 }, .create walkDog]
    (Or.inl rfl) (by decide)
  ⟨h.2.2.1, h.2.1⟩

/-! ## GetTaskByID, UpdateTask, DeleteTask -/

/-- C5 (GetByID fails iff absent): `GetTaskByID` returns the error "task not found" exactly
when no stored task has the ID, then with the zero task; otherwise it returns, without error,
the first task in insertion order with that ID; the store is unchanged in both cases. -/
theorem getTaskByID_fails_iff_absent (s : Store) (id : Int) :
    ((GetTaskByID s id).1.2 = some "task not found" ↔ ¬ ∃ t ∈ s, t.ID = id) ∧
    ((¬ ∃ t ∈ s, t.ID = id) → (GetTaskByID s id).1 = (Task.zero, some "task not found")) ∧
    ((∃ t ∈ s, t.ID = id) → ∃ pre t post, s = pre ++ t :: post ∧ (∀ x ∈ pre, x.ID ≠ id) ∧
      t.ID = id ∧ (GetTaskByID s id).1 = (t, none)) ∧
    (GetTaskByID s id).2 = s := by
  have habs : (¬ ∃ t ∈ s, t.ID = id) →
      (GetTaskByID s id).1 = (Task.zero, some "task not found") := by
    intro h
    exact getTaskByID_loop_of_absent id s (fun x hx hid => h ⟨x, hx, hid⟩)
  have hpres : (∃ t ∈ s, t.ID = id) → ∃ pre t post, s = pre ++ t :: post ∧
      (∀ x ∈ pre, x.ID ≠ id) ∧ t.ID = id ∧ (GetTaskByID s id).1 = (t, none) := by
    intro h
    obtain ⟨pre, t, post, hs, hpre, ht⟩ := exists_first_split id s h
    refine ⟨pre, t, post, hs, hpre, ht, ?_⟩
    subst hs
    exact getTaskByID_loop_of_split id pre t post hpre ht
  refine ⟨⟨?_, fun h => by rw [habs h]⟩, habs, hpres, rfl⟩
  intro herr hex
  obtain ⟨_, t, _, _, _, _, hget⟩ := hpres hex
  rw [hget] at herr
  exact absurd herr (by simp)

/-- Instance of C5: ID 2 is found in the store after create, create; ID 7 is not. -/
theorem getTaskByID_fails_iff_absent_witness :
    (∃ pre t post, run emptyStore [.create buyMilk, .create walkDog] = pre ++ t :: post ∧
      (∀ x ∈ pre, x.ID ≠ 2) ∧ t.ID = 2 ∧
      (GetTaskByID (run emptyStore [.create buyMilk, .create walkDog]) 2).1 = (t, none)) ∧
    (GetTaskByID (run emptyStore [.create buyMilk, .create walkDog]) 7).1 =
      (Task.zero, some "task not found") :=
  ⟨(getTaskByID_fails_iff_absent (run emptyStore [.create buyMilk, .create walkDog]) 2).2.2.1
      ⟨{ walkDog with ID := 2 }, by decide, rfl⟩,
    (getTaskByID_fails_iff_absent (run emptyStore [.create buyMilk, .create walkDog]) 7).2.1
      (by decide)⟩

/-- C6 (Update replaces wholesale or fails atomically): when some stored task has the ID of
`u`, `UpdateTask` returns no error and the store is the old one with the first such task
replaced by `u`, all other positions, the length and the sequence of IDs unchanged; when none
has it, `UpdateTask` returns "task not found" and the store is unchanged. -/
theorem updateTask_replaces_or_fails (s : Store) (u : Task) :
    ((∃ t ∈ s, t.ID = u.ID) → ∃ pre t post, s = pre ++ t :: post ∧ (∀ x ∈ pre, x.ID ≠ u.ID) ∧
      t.ID = u.ID ∧ UpdateTask s u = (none, pre ++ u :: post) ∧
      (UpdateTask s u).2.length = s.length ∧
      (UpdateTask s u).2.map Task.ID = s.map Task.ID) ∧
    ((¬ ∃ t ∈ s, t.ID = u.ID) → UpdateTask s u = (some "task not found", s)) := by
  constructor
  · intro h
    obtain ⟨pre, t, post, hs, hpre, ht⟩ := exists_first_split u.ID s h
    refine ⟨pre, t, post, hs, hpre, ht, ?_, updateTask_length s u, updateTask_map_ID s u⟩
    subst hs
    exact updateTask_of_split u pre t post hpre ht
  · intro h
    exact updateTask_loop_of_absent s u 0 s (fun x hx hid => h ⟨x, hx, hid⟩)

/-- Instance of C6 on the store with two tasks of ID 2 and on a missing ID. -/
theorem updateTask_replaces_or_fails_witness :
    (∃ pre t post, collided = pre ++ t :: post ∧ (∀ x ∈ pre, x.ID ≠ 2) ∧ t.ID = 2 ∧
      UpdateTask collided { buyMilk with ID := 2 } =
        (none, pre ++ { buyMilk with ID := 2 } :: post) ∧
      (UpdateTask collided { buyMilk with ID := 2 }).2.length = collided.length ∧
      (UpdateTask collided { buyMilk with ID := 2 }).2.map Task.ID = collided.map Task.ID) ∧
    UpdateTask collided { buyMilk with ID := 999 } = (some "task not found", collided) :=
  ⟨(updateTask_replaces_or_fails collided { buyMilk with ID := 2 }).1
      ⟨{ walkDog with ID := 2 }, by decide, rfl⟩,
    (updateTask_replaces_or_fails collided { buyMilk with ID := 999 }).2 (by decide)⟩

/-- C7 (Delete removes exactly one record and preserves order): when some stored task has the
ID, `DeleteTask` returns no error and the store is the old one without the first such task, one
shorter, the others unchanged and in their order; when none has it, `DeleteTask` returns
"task not found" and the store is unchanged. -/
theorem deleteTask_removes_first_or_fails (s : Store) (id : Int) :
    ((∃ t ∈ s, t.ID = id) → ∃ pre t post, s = pre ++ t :: post ∧ (∀ x ∈ pre, x.ID ≠ id) ∧
      t.ID = id ∧ DeleteTask s id = (none, pre ++ post) ∧
      (DeleteTask s id).2.length + 1 = s.length ∧
      (DeleteTask s id).2.Sublist s) ∧
    ((¬ ∃ t ∈ s, t.ID = id) → DeleteTask s id = (some "task not found", s)) := by
  constructor
  · intro h
    obtain ⟨pre, t, post, hs, hpre, ht⟩ := exists_first_split id s h
    subst hs
    have hdel := deleteTask_of_split id pre t post hpre ht
    refine ⟨pre, t, post, rfl, hpre, ht, hdel, ?_, ?_⟩
    · rw [hdel]; simp; omega
    · rw [hdel]
      exact List.Sublist.append (List.Sublist.refl pre) (List.sublist_cons_self t post)
  · intro h
    exact deleteTask_loop_of_absent s id 0 s (fun x hx hid => h ⟨x, hx, hid⟩)

/-- Instance of C7 on the store after create, create. -/
theorem deleteTask_removes_first_or_fails_witness :
    (∃ pre t post, run emptyStore [.create buyMilk, .create walkDog] = pre ++ t :: post ∧
      (∀ x ∈ pre, x.ID ≠ 1) ∧ t.ID = 1 ∧
      DeleteTask (run emptyStore [.create buyMilk, .create walkDog]) 1 = (none, pre ++ post) ∧
      (DeleteTask (run emptyStore [.create buyMilk, .create walkDog]) 1).2.length + 1 =
        (run emptyStore [.create buyMilk, .create walkDog]).length ∧
      (DeleteTask (run emptyStore [.create buyMilk, .create walkDog]) 1).2.Sublist
        (run emptyStore [.create buyMilk, .create walkDog])) ∧
    DeleteTask (run emptyStore [.create buyMilk, .create walkDog]) 999 =
      (some "task not found", run emptyStore [.create buyMilk, .create walkDog]) :=
  ⟨(deleteTask_removes_first_or_fails (run emptyStore [.create buyMilk, .create walkDog]) 1).1
      ⟨{ buyMilk with ID := 1 }, by decide, rfl⟩,
    (deleteTask_removes_first_or_fails (run emptyStore [.create buyMilk, .create walkDog]) 999).2
      (by decide)⟩

/-- C8 (a deleted id is gone) evaluated on the reachable store `collided`, which holds two
tasks with ID 2: `DeleteTask(2)` succeeds, the following `GetTaskByID(2)` returns "Read"
without error, and a second `DeleteTask(2)` succeeds as well. -/
theorem deleteTask_then_id_still_present :
    Reachable collided ∧
    DeleteTask collided 2 = (none, [{ readBook with ID := 2 }]) ∧
    (GetTaskByID (DeleteTask collided 2).2 2).1 = ({ readBook with ID := 2 }, none) ∧
    DeleteTask (DeleteTask collided 2).2 2 = (none, []) := by
  refine ⟨⟨_, rfl⟩, by decide, by decide, by decide⟩

/-! ## GetFilteredTasks and ClearTasks -/

/-- C9 (Filter equals filtering GetAll): `GetFilteredTasks` returns no error, leaves the store
unchanged and returns the tasks of `GetAllTasks` that satisfy
`(category = "" or Category = category) and (status = "" or Status = status)`, in the same
order; with both arguments empty that is every task, with one argument non-empty the tasks
matching that field. -/
theorem getFilteredTasks_eq_filter_getAllTasks (s : Store) (category status : String) :
    GetFilteredTasks s category status =
      ((specFilter category status (GetAllTasks s).1.1, none), s) ∧
    (GetFilteredTasks s category status).1.1.Sublist (GetAllTasks s).1.1 ∧
    (∀ t, t ∈ (GetFilteredTasks s category status).1.1 ↔
      t ∈ s ∧ (category = "" ∨ t.Category = category) ∧ (status = "" ∨ t.Status = status)) ∧
    (GetFilteredTasks s "" "").1.1 = s ∧
    (category ≠ "" → (GetFilteredTasks s category "").1.1 =
      s.filter (fun t => decide (t.Category = category))) ∧
    (status ≠ "" → (GetFilteredTasks s "" status).1.1 =
      s.filter (fun t => decide (t.Status = status))) := by
  have hcond : ∀ c st : String, filterCond c st = fun task : Task =>
      decide ((c = "" ∨ task.Category = c) ∧ (st = "" ∨ task.Status = st)) := by
    intro c st
    funext task
    simp only [filterCond, Bool.decide_and, Bool.decide_or]
    rfl
  have hmain : ∀ c st : String, (GetFilteredTasks s c st).1.1 = specFilter c st s := by
    intro c st
    simp only [GetFilteredTasks, getFilteredTasks_loop_eq, List.nil_append, specFilter, hcond]
  refine ⟨?_, ?_, ?_, ?_, ?_, ?_⟩
  · have h := hmain category status
    simp only [GetFilteredTasks] at h ⊢
    rw [h]; rfl
  · rw [hmain]; exact List.filter_sublist _
  · intro t
    rw [hmain]
    simp [specFilter, List.mem_filter]
  · rw [hmain]; simp [specFilter]
  · intro hc
    rw [hmain]; simp [specFilter, hc]
  · intro hst
    rw [hmain]; simp [specFilter, hst]

/-- Instance of C9 with one filter value given. -/
theorem getFilteredTasks_eq_filter_getAllTasks_witness :
    (GetFilteredTasks collided "Test" "").1.1 =
      collided.filter (fun t => decide (t.Category = "Test")) ∧
    (GetFilteredTasks collided "" "Completed").1.1 =
      collided.filter (fun t => decide (t.Status = "Completed")) :=
  ⟨(getFilteredTasks_eq_filter_getAllTasks collided "Test" "Completed").2.2.2.2.1 (by decide),
    (getFilteredTasks_eq_filter_getAllTasks collided "Test" "Completed").2.2.2.2.2 (by decide)⟩

/-- C10 (Clear resets the store): after `ClearTasks`, `GetAllTasks` returns no error and the
empty sequence, the next `CreateTask` stores its task with ID 1 as the only task, and
`GetTaskByID(1)` then returns that task without error. -/
theorem clearTasks_resets (s : Store) (t : Task) :
    GetAllTasks (ClearTasks s) = (([], none), []) ∧
    CreateTask (ClearTasks s) t = (none, [{ t with ID := 1 }]) ∧
    (GetTaskByID (CreateTask (ClearTasks s) t).2 1).1 = ({ t with ID := 1 }, none) := by
  refine ⟨rfl, ?_, ?_⟩
  · simp [CreateTask, ClearTasks]
  · simp [CreateTask, ClearTasks, GetTaskByID, GetTaskByID.loop]

/-! ## The scenario of section 8 -/

/-- C11 (concrete scenario from the empty store): "Buy milk" is stored with ID 1, "Walk dog"
with ID 2, `GetFilteredTasks("", "")` returns both in this order, `DeleteTask(1)` succeeds,
`GetAllTasks` then returns the single task with ID 2, `CreateTask` of "Read" stores it with
ID 2 again, so two tasks with ID 2 are stored, and `GetTaskByID(2)` returns "Walk dog". -/
theorem scenario_create_delete_create :
    CreateTask emptyStore buyMilk = (none, [{ buyMilk with ID := 1 }]) ∧
    CreateTask [{ buyMilk with ID := 1 }] walkDog =
      (none, [{ buyMilk with ID := 1 }, { walkDog with ID := 2 }]) ∧
    GetFilteredTasks [{ buyMilk with ID := 1 }, { walkDog with ID := 2 }] "" "" =
      (([{ buyMilk with ID := 1 }, { walkDog with ID := 2 }], none),
        [{ buyMilk with ID := 1 }, { walkDog with ID := 2 }]) ∧
    DeleteTask [{ buyMilk with ID := 1 }, { walkDog with ID := 2 }] 1 =
      (none, [{ walkDog with ID := 2 }]) ∧
    GetAllTasks [{ walkDog with ID := 2 }] =
      (([{ walkDog with ID := 2 }], none), [{ walkDog with ID := 2 }]) ∧
    CreateTask [{ walkDog with ID := 2 }] readBook =
      (none, [{ walkDog with ID := 2 }, { readBook with ID := 2 }]) ∧
    ([{ walkDog with ID := 2 }, { readBook with ID := 2 }].map Task.ID = [2, 2]) ∧
    (GetTaskByID [{ walkDog with ID := 2 }, { readBook with ID := 2 }] 2).1 =
      ({ walkDog with ID := 2 }, none) := by
  refine ⟨by decide, by decide, by decide, by decide, by decide, by decide, by decide,
    by decide⟩

/-! ## Validation -/

theorem validateTaskInput_of_empty (title description : String)
    (h : title = "" ∨ description = "") :
    ValidateTaskInput title description = some "both title and description are required" := by
  unfold ValidateTaskInput
  rcases h with h | h <;> simp [h]

theorem validateTaskInput_of_nonempty (title description : String)
    (ht : title ≠ "") (hd : description ≠ "") :
    ValidateTaskInput title description = none := by
  unfold ValidateTaskInput
  simp [ht, hd]

/-- C12 (validation rule): `ValidateTaskInput` returns an error exactly when the title or the
description is empty, and the error is then the fixed text "both title and description are
required" whichever field is empty; it is a function of its two arguments alone. -/
theorem validateTaskInput_rule (title description : String) :
    (ValidateTaskInput title description ≠ none ↔ title = "" ∨ description = "") ∧
    (title = "" ∨ description = "" →
      ValidateTaskInput title description = some "both title and description are required") ∧
    (title ≠ "" ∧ description ≠ "" → ValidateTaskInput title description = none) := by
  refine ⟨⟨?_, ?_⟩, validateTaskInput_of_empty title description,
    fun h => validateTaskInput_of_nonempty title description h.1 h.2⟩
  · intro h
    by_contra hne
    push_neg at hne
    exact h (validateTaskInput_of_nonempty title description hne.1 hne.2)
  · intro h
    rw [validateTaskInput_of_empty title description h]
    simp

/-- Instance of C12: an empty title, an empty description, and a valid pair. -/
theorem validateTaskInput_rule_witness :
    ValidateTaskInput "" "30 min walk" = some "both title and description are required" ∧
    ValidateTaskInput "Walk dog" "" = some "both title and description are required" ∧
    ValidateTaskInput "Walk dog" "30 min walk" = none :=
  ⟨(validateTaskInput_rule "" "30 min walk").2.1 (Or.inl rfl),
    (validateTaskInput_rule "Walk dog" "").2.1 (Or.inr rfl),
    (validateTaskInput_rule "Walk dog" "30 min walk").2.2 ⟨by decide, by decide⟩⟩

/-! ## CreateTaskCLI -/

theorem createTaskCLI_of_empty (s : Store) (title description : String)
    (h : title = "" ∨ description = "") :
    handlers.CreateTaskCLI s title description =
      ((none, some "both title and description are required"), s) := by
  simp only [handlers.CreateTaskCLI, validateTaskInput_of_empty title description h]

theorem createTaskCLI_of_nonempty (s : Store) (title description : String)
    (ht : title ≠ "") (hd : description ≠ "") :
    handlers.CreateTaskCLI s title description =
      ((some { Task.zero with Title := title, Description := description }, none),
        s ++ [{ Task.zero with
          ID := (s.length : Int) + 1, Title := title, Description := description }]) := by
  simp only [handlers.CreateTaskCLI, validateTaskInput_of_nonempty title description ht hd,
    CreateTask]

theorem deleteTask_subset (s : Store) (id : Int) : ∀ x ∈ (DeleteTask s id).2, x ∈ s := by
  by_cases h : ∃ t ∈ s, t.ID = id
  · obtain ⟨pre, t, post, hs, hpre, ht⟩ := exists_first_split id s h
    subst hs
    rw [deleteTask_of_split id pre t post hpre ht]
    intro x hx
    rcases List.mem_append.1 hx with hx | hx
    · exact List.mem_append_left _ hx
    · exact List.mem_append_right _ (List.mem_cons_of_mem _ hx)
  · have h2 : ∀ x ∈ s, x.ID ≠ id := fun x hx hid => h ⟨x, hx, hid⟩
    unfold DeleteTask
    rw [deleteTask_loop_of_absent s id 0 s h2]
    exact fun x hx => hx

theorem runCli_nonempty_fields (ops : List CliOp) :
    ∀ s : Store, (∀ t ∈ s, t.Title ≠ "" ∧ t.Description ≠ "") →
      ∀ t ∈ runCli s ops, t.Title ≠ "" ∧ t.Description ≠ "" := by
  induction ops with
  | nil => intro s hs; exact hs
  | cons op ops ih =>
    intro s hs
    apply ih (CliOp.apply s op)
    cases op with
    | create title description =>
      by_cases h : title = "" ∨ description = ""
      · rw [CliOp.apply, createTaskCLI_of_empty s title description h]
        exact hs
      · push_neg at h
        rw [CliOp.apply, createTaskCLI_of_nonempty s title description h.1 h.2]
        intro t ht
        rcases List.mem_append.1 ht with ht | ht
        · exact hs t ht
        · rw [List.mem_singleton.1 ht]
          exact h
    | delete id =>
      intro t ht
      exact hs t (deleteTask_subset s id t ht)

/-- C13 (invalid input never reaches the store): with an empty title or description
`CreateTaskCLI` returns a nil task with the validation error and leaves the store as it was;
so in every store reached from the empty store by `CreateTaskCLI` and `DeleteTask` calls every
stored task has a non-empty title and a non-empty description. -/
theorem createTaskCLI_rejects_invalid (s : Store) (title description : String) :
    (title = "" ∨ description = "" →
      handlers.CreateTaskCLI s title description =
        ((none, some "both title and description are required"), s) ∧
      (handlers.CreateTaskCLI s title description).1.2 =
        ValidateTaskInput title description) ∧
    (∀ (ops : List CliOp), ∀ t ∈ runCli emptyStore ops,
      t.Title ≠ "" ∧ t.Description ≠ "") := by
  refine ⟨fun h => ⟨createTaskCLI_of_empty s title description h, ?_⟩, fun ops =>
    runCli_nonempty_fields ops emptyStore (by simp [emptyStore])⟩
  rw [createTaskCLI_of_empty s title description h,
    validateTaskInput_of_empty title description h]

/-- Instance of C13: an empty description on the store `collided`. -/
theorem createTaskCLI_rejects_invalid_witness :
    handlers.CreateTaskCLI collided "Walk dog" "" =
      ((none, some "both title and description are required"), collided) :=
  ((createTaskCLI_rejects_invalid collided "Walk dog" "").1 (Or.inr rfl)).1

/-- C14 (Create returns the stored task) evaluated on the empty store: `CreateTaskCLI` with
the title "Buy milk" stores the task with ID 1 and returns, without error, a task with ID 0;
the HTTP handler `CreateTask` stores the decoded task with ID 1 and its response body carries
the task with ID 0. -/
theorem createTaskCLI_returns_unassigned_id :
    handlers.CreateTaskCLI emptyStore "Buy milk" "2% milk, 1 gallon" =
      ((some { buyMilk with ID := 0 }, none), [{ buyMilk with ID := 1 }]) ∧
    handlers.CreateTask emptyStore (some buyMilk) =
      ({ status := 200, body := Body.task { buyMilk with ID := 0 } },
        [{ buyMilk with ID := 1 }]) ∧
    ({ buyMilk with ID := 0 } : Task) ≠ { buyMilk with ID := 1 } := by
  refine ⟨by decide, by decide, by decide⟩

/-! ## Status codes of the HTTP handlers -/

/-- C15 (NotFound maps to 404) evaluated on the empty store and the ID 999: the handler
`GetTaskByID` responds 404, but the handlers `UpdateTask` (with a valid body) and
`DeleteTask` respond 500; an empty title in `CreateTask` or `UpdateTask` responds 400. -/
theorem handlers_not_found_status :
    (handlers.GetTaskByID emptyStore (some 999)).1 =
      { status := 404, body := Body.text "Task not found" } ∧
    (handlers.UpdateTask emptyStore (some 999) (some buyMilk)).1 =
      { status := 500, body := Body.text "Error updating task" } ∧
    (handlers.DeleteTask emptyStore (some 999)).1 =
      { status := 500, body := Body.text "Error deleting task" } ∧
    (handlers.CreateTask emptyStore (some { buyMilk with Title := "" })).1.status = 400 ∧
    (handlers.UpdateTask emptyStore (some 999) (some { buyMilk with Title := "" })).1.status
      = 400 := by
  refine ⟨by decide, by decide, by decide, by decide, by decide⟩

/-! ## Positions bound the identifiers from below -/

theorem posLe_createTask {s : Store} (h : PosLe s) (t : Task) : PosLe (CreateTask s t).2 := by
  intro i id hi
  simp only [CreateTask, List.map_append, List.map_cons, List.map_nil] at hi
  by_cases hlt : i < (s.map Task.ID).length
  · rw [List.getElem?_append_left hlt] at hi
    exact h i id hi
  · have hge : (s.map Task.ID).length ≤ i := by omega
    rw [List.getElem?_append_right hge] at hi
    have hlen : (s.map Task.ID).length = s.length := List.length_map _ _
    by_cases h0 : i - (s.map Task.ID).length = 0
    · rw [h0] at hi
      simp at hi
      omega
    · obtain ⟨k, hk⟩ := Nat.exists_eq_succ_of_ne_zero h0
      rw [hk] at hi
      simp at hi

theorem posLe_updateTask {s : Store} (h : PosLe s) (u : Task) : PosLe (UpdateTask s u).2 := by
  intro i id hi
  rw [updateTask_map_ID] at hi
  exact h i id hi

theorem posLe_deleteTask {s : Store} (h : PosLe s) (id : Int) : PosLe (DeleteTask s id).2 := by
  by_cases hex : ∃ t ∈ s, t.ID = id
  · obtain ⟨pre, t, post, hs, hpre, ht⟩ := exists_first_split id s hex
    subst hs
    rw [deleteTask_of_split id pre t post hpre ht]
    intro i a hi
    have hlen : (pre.map Task.ID).length = pre.length := List.length_map _ _
    rw [List.map_append] at hi
    by_cases hlt : i < (pre.map Task.ID).length
    · rw [List.getElem?_append_left hlt] at hi
      apply h i a
      rw [List.map_append, List.getElem?_append_left hlt]
      exact hi
    · have hge : (pre.map Task.ID).length ≤ i := by omega
      rw [List.getElem?_append_right hge] at hi
      have hnext : (i + 1 : Int) + 1 ≤ a := by
        have := h (i + 1) a (by
          rw [List.map_append, List.getElem?_append_right (by omega), List.map_cons]
          have hidx : i + 1 - (pre.map Task.ID).length =
              (i - (pre.map Task.ID).length) + 1 := by omega
          rw [hidx, List.getElem?_cons_succ]
          exact hi)
        push_cast at this
        exact this
      omega
  · have h2 : ∀ x ∈ s, x.ID ≠ id := fun x hx hid => hex ⟨x, hx, hid⟩
    unfold DeleteTask
    rw [deleteTask_loop_of_absent s id 0 s h2]
    exact h

theorem posLe_run (ops : List Op) : ∀ s : Store, PosLe s → PosLe (run s ops) := by
  induction ops with
  | nil => intro s hs; exact hs
  | cons op ops ih =>
    intro s hs
    rw [run_cons]
    apply ih
    cases op with
    | create t => exact posLe_createTask hs t
    | update u => exact posLe_updateTask hs u
    | delete id => exact posLe_deleteTask hs id
    | clear =>
      intro i a hi
      simp [Op.apply, ClearTasks] at hi

theorem posLe_of_reachable {s : Store} (h : Reachable s) : PosLe s := by
  obtain ⟨ops, rfl⟩ := h
  apply posLe_run
  intro i a hi
  simp [emptyStore] at hi

theorem posLe_getElem {s : Store} (h : PosLe s) (i : Nat) (x : Task) (hx : s[i]? = some x) :
    (i : Int) + 1 ≤ x.ID := by
  apply h i x.ID
  rw [List.getElem?_map, hx]
  rfl

theorem posLe_one_le {s : Store} (h : PosLe s) : ∀ x ∈ s, 1 ≤ x.ID := by
  intro x hx
  obtain ⟨i, hi⟩ := List.getElem?_of_mem hx
  have := posLe_getElem h i x hi
  omega

/-- C17 (position lower-bounds the id): in every store reachable from the empty store by
`CreateTask`, `UpdateTask`, `DeleteTask` and `ClearTasks` calls the task at 0-based position
`i` has ID at least `i + 1`; so every stored ID is at least 1, `GetTaskByID`, `UpdateTask` and
`DeleteTask` fail with "task not found" (store unchanged) for every ID at most 0, and a stored
task whose ID equals the ID `count + 1` of the next `CreateTask` sits at a position strictly
below `count`. -/
theorem reachable_position_bounds_id (s : Store) (h : Reachable s) :
    (∀ (i : Nat) (x : Task), s[i]? = some x → (i : Int) + 1 ≤ x.ID) ∧
    (∀ x ∈ s, 1 ≤ x.ID) ∧
    (∀ id : Int, id ≤ 0 →
      (GetTaskByID s id).1 = (Task.zero, some "task not found") ∧
      (∀ u : Task, u.ID = id → UpdateTask s u = (some "task not found", s)) ∧
      DeleteTask s id = (some "task not found", s)) ∧
    (∀ (t : Task) (i : Nat) (x : Task), s[i]? = some x →
      x.ID = ((CreateTask s t).2.getLast?.map Task.ID).getD 0 →
      x.ID = (s.length : Int) + 1 ∧ i < s.length) := by
  have hp := posLe_of_reachable h
  have hone := posLe_one_le hp
  refine ⟨posLe_getElem hp, hone, ?_, ?_⟩
  · intro id hid
    have habs : ∀ x ∈ s, x.ID ≠ id := by
      intro x hx hxid
      have := hone x hx
      omega
    refine ⟨getTaskByID_loop_of_absent id s habs, ?_, deleteTask_loop_of_absent s id 0 s habs⟩
    intro u hu
    exact updateTask_loop_of_absent s u 0 s (by rw [hu]; exact habs)
  · intro t i x hx hid
    have hlt : i < s.length := by
      by_contra hge
      rw [List.getElem?_eq_none (by omega)] at hx
      exact absurd hx (by simp)
    refine ⟨?_, hlt⟩
    simpa [CreateTask] using hid

/-- Instance of C17 on the store with two tasks of ID 2. -/
theorem reachable_position_bounds_id_witness :
    (∀ x ∈ collided, 1 ≤ x.ID) ∧
    DeleteTask collided 0 = (some "task not found", collided) :=
  have h := reachable_position_bounds_id collided ⟨_, rfl⟩
  ⟨h.2.1, (h.2.2.1 0 (le_refl 0)).2.2⟩

end TaskManager
